import Mathlib

/-!
# Verification of the jsoncanvas v1.0 data model and codec

Shallow embedding of `src/v1_0/mod.rs`: the Canvas/Node/Edge data model,
its serde-derived JSON codec, and the `unknown_nodes` referential validator.

The JSON wire values are modelled by the inductive `Json` below.  Numbers are
modelled as integers (every number in this format is an `i64`/`u64` or a
preset-color integer; non-integer numbers never decode successfully into any
field of this model and no property below depends on them).  Objects are
modelled as association lists; key lookup takes the first occurrence, and the
duplicate-key rejection of the underlying JSON parser is not modelled (no
property below involves duplicate keys).

The encoders and decoders below follow the semantics of the serde derive
macros exactly as instantiated by the attributes in the source:
* a struct field of type `Option<T>` decodes `null` to `None`, a missing key
  to `None`, and anything else through `T`'s decoder; on encode, `None` is
  emitted as an explicit `null` value (the source has no `skip_serializing_if`
  attributes);
* a unit-only enum with derived `Serialize`/`Deserialize` encodes each
  variant as its (possibly `rename_all`-renamed) variant-name string, and
  decodes only such strings — explicit discriminant values such as
  `Red = 1` in `PresetColor` are not consulted by serde;
* `#[serde(untagged)]` on `Color` tries the variants in declaration order;
* `#[serde(tag = "type")]` on `Node` dispatches on the string value of the
  `"type"` key, emitting the tag first on encode;
* `#[serde(flatten)]` merges the generic node fields into the same object as
  the variant-specific fields; unknown keys are ignored;
* `#[serde(deserialize_with = "deserialize_null_default")]` WITHOUT
  `#[serde(default)]` on the `Canvas` collections decodes an explicit `null`
  to the empty vector, but a missing key is a hard `missing_field` error
  (serde derive only falls back to a default for a missing key when the
  `default` attribute is present).

External crates whose sources are not part of this repository are modelled
from the spec: `hex_color::HexColor` as an RGB triple with the
`#RRGGBB` wire pattern of spec §4.1/§9, `url::Url` and `std::path::PathBuf`
as strings (the spec's wire shapes `string-url` and `string-path`).
-/

namespace JsonCanvas

/-- JSON values (numbers restricted to integers, see the header comment). -/
inductive Json where
  | null
  | bool (b : Bool)
  | num (n : Int)
  | str (s : String)
  | arr (items : List Json)
  | obj (fields : List (String × Json))

/-- First-occurrence key lookup in a JSON object's field list. -/
def getKey : List (String × Json) → String → Option Json
  | [], _ => none
  | (k, v) :: rest, key => if k = key then some v else getKey rest key

/-- True exactly on the JSON `null` value. -/
def Json.isNull : Json → Bool
  | .null => true
  | _ => false

/-! ## Domain types (from `src/v1_0/mod.rs`) -/

abbrev NodeId := String
abbrev EdgeId := String
/-- `pub type PxCoord = i64;` (range enforced at decode time). -/
abbrev PxCoord := Int
/-- `pub type PxLength = u64;` (range enforced at decode time). -/
abbrev PxLength := Nat

structure Location where
  x : PxCoord
  y : PxCoord
deriving DecidableEq

structure Dimensions where
  width : PxLength
  height : PxLength
deriving DecidableEq

inductive Side where
  | Top
  | Right
  | Bottom
  | Left
deriving DecidableEq

inductive EndStyle where
  | None
  | Arrow
deriving DecidableEq

inductive BackgroundStyle where
  | Cover
  | Ratio
  | Repeat
deriving DecidableEq

inductive PresetColor where
  | Red
  | Orange
  | Yellow
  | Green
  | Cyan
  | Purple
deriving DecidableEq

/-- Modelled from the spec: `hex_color::HexColor` (external crate, not under
`src/`) as an RGB triple; spec §3/§4.1 describe the hex case as "an arbitrary
hex RGB color" with wire pattern `#RRGGBB`. Component range 0–255 is a
validity condition (`HexColor.validFields`). -/
structure HexColor where
  r : Nat
  g : Nat
  b : Nat
deriving DecidableEq

inductive Color where
  | Preset (p : PresetColor)
  | Hex (h : HexColor)
deriving DecidableEq

/-- Modelled from the spec: `url::Url` (external crate, not under `src/`);
the spec's wire shape for a link node's `url` is `string-url`, so a URL is
modelled as its string serialization. -/
structure Url where
  serialization : String
deriving DecidableEq

/-- Modelled from the spec: `std::path::PathBuf`, wire shape `string-path`. -/
abbrev PathBuf := String

structure GenericNode where
  id : NodeId
  location : Location
  dimensions : Dimensions
  color : Option Color
deriving DecidableEq

structure TextNode where
  generic : GenericNode
  text : String
deriving DecidableEq

structure FileNode where
  generic : GenericNode
  file : PathBuf
  subpath : Option String
deriving DecidableEq

structure LinkNode where
  generic : GenericNode
  url : Url
deriving DecidableEq

structure GroupNode where
  generic : GenericNode
  label : Option String
  background : Option PathBuf
  background_style : Option BackgroundStyle
deriving DecidableEq

inductive Node where
  | Text (t : TextNode)
  | File (f : FileNode)
  | Link (l : LinkNode)
  | Group (g : GroupNode)
deriving DecidableEq

/-- The delegated `GenericNodeInfo::id` accessor. -/
def Node.id : Node → NodeId
  | .Text t => t.generic.id
  | .File f => f.generic.id
  | .Link l => l.generic.id
  | .Group g => g.generic.id

/-- The delegated `GenericNodeInfo::location` accessor. -/
def Node.location : Node → Location
  | .Text t => t.generic.location
  | .File f => f.generic.location
  | .Link l => l.generic.location
  | .Group g => g.generic.location

/-- The delegated `GenericNodeInfo::dimensions` accessor. -/
def Node.dimensions : Node → Dimensions
  | .Text t => t.generic.dimensions
  | .File f => f.generic.dimensions
  | .Link l => l.generic.dimensions
  | .Group g => g.generic.dimensions

/-- The delegated `GenericNodeInfo::color` accessor. -/
def Node.color : Node → Option Color
  | .Text t => t.generic.color
  | .File f => f.generic.color
  | .Link l => l.generic.color
  | .Group g => g.generic.color

structure Edge where
  id : EdgeId
  from_node : NodeId
  from_side : Option Side
  from_end : Option EndStyle
  to_node : NodeId
  to_side : Option Side
  to_end : Option EndStyle
  color : Option Color
  label : Option String
deriving DecidableEq

structure Canvas where
  nodes : List Node
  edges : List Edge
deriving DecidableEq

/-- `Canvas::unknown_nodes`: fold edge endpoints into a set, then remove every
declared node id. -/
def Canvas.unknown_nodes (c : Canvas) : Finset String :=
  let ids := c.edges.foldl
    (fun s e => insert e.to_node (insert e.from_node s)) (∅ : Finset String)
  c.nodes.foldl (fun s n => s.erase n.id) ids

/-- State-passing rendition of `Canvas::unknown_nodes` (the method takes
`&self`): the body only reads the collections and returns the set together
with the untouched canvas.  Totality of this Lean function reflects that the
source body is a finite loop of `HashSet` inserts and removes and has no
failure path. -/
def Canvas.unknown_nodes_run (c : Canvas) : Finset String × Canvas :=
  let ids := c.edges.foldl
    (fun s e => insert e.to_node (insert e.from_node s)) (∅ : Finset String)
  let out := c.nodes.foldl (fun s n => s.erase n.id) ids
  (out, c)

/-- `impl Default for EndStyle`. -/
def EndStyle.default : EndStyle := .None

/-- `EndStyle::into_option`: the `None` end style becomes `none`, all other
styles become `some`. -/
def EndStyle.into_option : EndStyle → Option EndStyle
  | .None => none
  | s => some s

/-- `impl From<Option<EndStyle>> for EndStyle`: `value.unwrap_or_default()`. -/
def EndStyle.fromOption (value : Option EndStyle) : EndStyle :=
  value.getD EndStyle.default

/-! ## Hex color wire format

Modelled from the spec: the hex pattern of §9 is `^#[0-9A-Fa-f]{6}$` (parsing
is case-insensitive); the examples of §4.1/§8 write the encoded form with
uppercase digits (`#FF0000`). -/

/-- Uppercase hex digit for a value below 16. -/
def hexChar (n : Nat) : Char :=
  if n = 0 then '0' else if n = 1 then '1' else if n = 2 then '2'
  else if n = 3 then '3' else if n = 4 then '4' else if n = 5 then '5'
  else if n = 6 then '6' else if n = 7 then '7' else if n = 8 then '8'
  else if n = 9 then '9' else if n = 10 then 'A' else if n = 11 then 'B'
  else if n = 12 then 'C' else if n = 13 then 'D' else if n = 14 then 'E'
  else 'F'

/-- Value of a hex digit, accepting both cases. -/
def hexVal (c : Char) : Option Nat :=
  if c = '0' then some 0 else if c = '1' then some 1 else if c = '2' then some 2
  else if c = '3' then some 3 else if c = '4' then some 4 else if c = '5' then some 5
  else if c = '6' then some 6 else if c = '7' then some 7 else if c = '8' then some 8
  else if c = '9' then some 9
  else if c = 'A' then some 10 else if c = 'a' then some 10
  else if c = 'B' then some 11 else if c = 'b' then some 11
  else if c = 'C' then some 12 else if c = 'c' then some 12
  else if c = 'D' then some 13 else if c = 'd' then some 13
  else if c = 'E' then some 14 else if c = 'e' then some 14
  else if c = 'F' then some 15 else if c = 'f' then some 15
  else none

/-- Encoded form `#RRGGBB` of a hex color. -/
def HexColor.format (h : HexColor) : String :=
  String.mk ['#', hexChar (h.r / 16), hexChar (h.r % 16),
             hexChar (h.g / 16), hexChar (h.g % 16),
             hexChar (h.b / 16), hexChar (h.b % 16)]

/-- Parse a `#RRGGBB` string into a hex color (case-insensitive digits). -/
def HexColor.parse (s : String) : Option HexColor :=
  match s.data with
  | ['#', r1, r2, g1, g2, b1, b2] => do
      let rh ← hexVal r1
      let rl ← hexVal r2
      let gh ← hexVal g1
      let gl ← hexVal g2
      let bh ← hexVal b1
      let bl ← hexVal b2
      pure ⟨rh * 16 + rl, gh * 16 + gl, bh * 16 + bl⟩
  | _ => none

/-! ## Encoders (serde `Serialize` derives) -/

/-- `Side` with `rename_all = "camelCase"`. -/
def encodeSide : Side → Json
  | .Top => .str "top"
  | .Right => .str "right"
  | .Bottom => .str "bottom"
  | .Left => .str "left"

/-- `EndStyle` with `rename_all = "camelCase"`. -/
def encodeEndStyle : EndStyle → Json
  | .None => .str "none"
  | .Arrow => .str "arrow"

/-- `BackgroundStyle` with `rename_all = "camelCase"`. -/
def encodeBackgroundStyle : BackgroundStyle → Json
  | .Cover => .str "cover"
  | .Ratio => .str "ratio"
  | .Repeat => .str "repeat"

/-- `PresetColor` has a plain serde derive and no rename attribute, so each
unit variant is encoded as its variant-name string; the explicit discriminant
values `Red = 1` … `Purple = 6` in the source are not used by serde. -/
def encodePresetColor : PresetColor → Json
  | .Red => .str "Red"
  | .Orange => .str "Orange"
  | .Yellow => .str "Yellow"
  | .Green => .str "Green"
  | .Cyan => .str "Cyan"
  | .Purple => .str "Purple"

def encodeHexColor (h : HexColor) : Json := .str h.format

/-- `#[serde(untagged)]`: the active variant is encoded directly. -/
def encodeColor : Color → Json
  | .Preset p => encodePresetColor p
  | .Hex h => encodeHexColor h

/-- Serde encodes an `Option` field with value `None` as an explicit JSON
`null` (the source has no `skip_serializing_if` attribute anywhere). -/
def encodeOpt (f : α → Json) : Option α → Json
  | none => .null
  | some a => f a

def encodeUrl (u : Url) : Json := .str u.serialization

/-- Field list of `GenericNode` (used flattened): `id`, the flattened
`Location` (`x`, `y`), the flattened `Dimensions` (`width`, `height`), and
`color`. -/
def GenericNode.encodeFields (g : GenericNode) : List (String × Json) :=
  [("id", .str g.id),
   ("x", .num g.location.x), ("y", .num g.location.y),
   ("width", .num g.dimensions.width), ("height", .num g.dimensions.height),
   ("color", encodeOpt encodeColor g.color)]

/-- Internally tagged `Node` encoding: the `type` tag first, then the
flattened generic fields, then the variant-specific fields in declaration
order. -/
def encodeNode : Node → Json
  | .Text t => .obj (("type", .str "text") :: t.generic.encodeFields
      ++ [("text", .str t.text)])
  | .File f => .obj (("type", .str "file") :: f.generic.encodeFields
      ++ [("file", .str f.file), ("subpath", encodeOpt .str f.subpath)])
  | .Link l => .obj (("type", .str "link") :: l.generic.encodeFields
      ++ [("url", encodeUrl l.url)])
  | .Group g => .obj (("type", .str "group") :: g.generic.encodeFields
      ++ [("label", encodeOpt .str g.label),
          ("background", encodeOpt .str g.background),
          ("backgroundStyle", encodeOpt encodeBackgroundStyle g.background_style)])

/-- `Edge` with `rename_all = "camelCase"`, fields in declaration order. -/
def encodeEdge (e : Edge) : Json :=
  .obj [("id", .str e.id),
        ("fromNode", .str e.from_node),
        ("fromSide", encodeOpt encodeSide e.from_side),
        ("fromEnd", encodeOpt encodeEndStyle e.from_end),
        ("toNode", .str e.to_node),
        ("toSide", encodeOpt encodeSide e.to_side),
        ("toEnd", encodeOpt encodeEndStyle e.to_end),
        ("color", encodeOpt encodeColor e.color),
        ("label", encodeOpt .str e.label)]

/-- `Canvas` encoding: both collections are always emitted as arrays. -/
def encodeCanvas (c : Canvas) : Json :=
  .obj [("nodes", .arr (c.nodes.map encodeNode)),
        ("edges", .arr (c.edges.map encodeEdge))]

/-! ## Decoders (serde `Deserialize` derives via `serde_json`) -/

def decodeString : Json → Option String
  | .str s => some s
  | _ => none

/-- `i64` from a JSON number: must be in the `i64` range. -/
def decodeI64 : Json → Option Int
  | .num n => if -(2 ^ 63) ≤ n ∧ n < 2 ^ 63 then some n else none
  | _ => none

/-- `u64` from a JSON number: must be a non-negative integer below `2^64`. -/
def decodeU64 : Json → Option Nat
  | .num n => if 0 ≤ n ∧ n < 2 ^ 64 then some n.toNat else none
  | _ => none

def decodeSide : Json → Option Side
  | .str s =>
      if s = "top" then some .Top
      else if s = "right" then some .Right
      else if s = "bottom" then some .Bottom
      else if s = "left" then some .Left
      else none
  | _ => none

def decodeEndStyle : Json → Option EndStyle
  | .str s =>
      if s = "none" then some .None
      else if s = "arrow" then some .Arrow
      else none
  | _ => none

def decodeBackgroundStyle : Json → Option BackgroundStyle
  | .str s =>
      if s = "cover" then some .Cover
      else if s = "ratio" then some .Ratio
      else if s = "repeat" then some .Repeat
      else none
  | _ => none

/-- Derived deserialization of the unit-only enum `PresetColor`: `serde_json`
only accepts the variant-name string — a bare integer is rejected (the
discriminants `Red = 1` … `Purple = 6` play no role in the derived impl). -/
def decodePresetColor : Json → Option PresetColor
  | .str s =>
      if s = "Red" then some .Red
      else if s = "Orange" then some .Orange
      else if s = "Yellow" then some .Yellow
      else if s = "Green" then some .Green
      else if s = "Cyan" then some .Cyan
      else if s = "Purple" then some .Purple
      else none
  | _ => none

def decodeHexColor : Json → Option HexColor
  | .str s => HexColor.parse s
  | _ => none

/-- `#[serde(untagged)]` on `Color`: try the variants in declaration order
(`Preset`, then `Hex`); fail when neither matches. -/
def decodeColor (j : Json) : Option Color :=
  ((decodePresetColor j).map .Preset) <|> ((decodeHexColor j).map .Hex)

def decodeUrl : Json → Option Url
  | .str s => some ⟨s⟩
  | _ => none

/-- Sequence decode: elementwise, failing on the first failing element. -/
def decodeList (f : Json → Option α) : List Json → Option (List α)
  | [] => some []
  | j :: rest =>
      match f j, decodeList f rest with
      | some a, some l => some (a :: l)
      | _, _ => none

/-- Required struct field: a missing key or a failing value decode is an
error. -/
def reqField (f : Json → Option α) (fields : List (String × Json))
    (k : String) : Option α :=
  (getKey fields k).bind f

/-- Struct field of type `Option<T>`: a missing key decodes to `none`, an
explicit `null` decodes to `none`, any other value goes through `T`'s
decoder. -/
def decodeOptField (f : Json → Option α) (fields : List (String × Json))
    (k : String) : Option (Option α) :=
  match getKey fields k with
  | none => some none
  | some v => if v.isNull then some none else (f v).map some

/-- Flattened `GenericNode` decode: `id`, the flattened `Location` fields
`x`/`y`, the flattened `Dimensions` fields `width`/`height`, and `color`;
other keys in the object are ignored. -/
def decodeGenericNode (fields : List (String × Json)) : Option GenericNode :=
  match reqField decodeString fields "id",
        reqField decodeI64 fields "x", reqField decodeI64 fields "y",
        reqField decodeU64 fields "width", reqField decodeU64 fields "height",
        decodeOptField decodeColor fields "color" with
  | some id, some x, some y, some width, some height, some color =>
      some ⟨id, ⟨x, y⟩, ⟨width, height⟩, color⟩
  | _, _, _, _, _, _ => none

def decodeTextNode (fields : List (String × Json)) : Option TextNode :=
  match decodeGenericNode fields, reqField decodeString fields "text" with
  | some generic, some text => some ⟨generic, text⟩
  | _, _ => none

def decodeFileNode (fields : List (String × Json)) : Option FileNode :=
  match decodeGenericNode fields, reqField decodeString fields "file",
        decodeOptField decodeString fields "subpath" with
  | some generic, some file, some subpath => some ⟨generic, file, subpath⟩
  | _, _, _ => none

def decodeLinkNode (fields : List (String × Json)) : Option LinkNode :=
  match decodeGenericNode fields, reqField decodeUrl fields "url" with
  | some generic, some url => some ⟨generic, url⟩
  | _, _ => none

def decodeGroupNode (fields : List (String × Json)) : Option GroupNode :=
  match decodeGenericNode fields, decodeOptField decodeString fields "label",
        decodeOptField decodeString fields "background",
        decodeOptField decodeBackgroundStyle fields "backgroundStyle" with
  | some generic, some label, some background, some background_style =>
      some ⟨generic, label, background, background_style⟩
  | _, _, _, _ => none

/-- `#[serde(tag = "type", rename_all = "camelCase")]` on `Node`: the value
of the `type` key must be a string and must be one of the four variant names;
anything else fails. -/
def decodeNode : Json → Option Node
  | .obj fields =>
      match getKey fields "type" with
      | some (.str t) =>
          if t = "text" then (decodeTextNode fields).map .Text
          else if t = "file" then (decodeFileNode fields).map .File
          else if t = "link" then (decodeLinkNode fields).map .Link
          else if t = "group" then (decodeGroupNode fields).map .Group
          else none
      | _ => none
  | _ => none

/-- `Edge` decode (`rename_all = "camelCase"`); unknown keys ignored. -/
def decodeEdge : Json → Option Edge
  | .obj fields =>
      match reqField decodeString fields "id",
            reqField decodeString fields "fromNode",
            decodeOptField decodeSide fields "fromSide",
            decodeOptField decodeEndStyle fields "fromEnd",
            reqField decodeString fields "toNode",
            decodeOptField decodeSide fields "toSide",
            decodeOptField decodeEndStyle fields "toEnd",
            decodeOptField decodeColor fields "color",
            decodeOptField decodeString fields "label" with
      | some id, some from_node, some from_side, some from_end, some to_node,
        some to_side, some to_end, some color, some label =>
          some ⟨id, from_node, from_side, from_end, to_node, to_side, to_end,
                color, label⟩
      | _, _, _, _, _, _, _, _, _ => none
  | _ => none

/-- Canvas collection field with
`#[serde(deserialize_with = "deserialize_null_default")]` and NO
`#[serde(default)]`: an explicit `null` decodes to the empty list, but a
missing key is a hard `missing_field` error — serde derive only substitutes a
default for a missing key when the `default` attribute is present, which the
source omits. -/
def nullDefaultList (f : Json → Option α) (fields : List (String × Json))
    (k : String) : Option (List α) :=
  match getKey fields k with
  | none => none
  | some .null => some []
  | some (.arr items) => decodeList f items
  | some _ => none

/-- `Canvas` decode: both `nodes` and `edges` go through the null-default
path above; unknown top-level keys are ignored. -/
def decodeCanvas : Json → Option Canvas
  | .obj fields =>
      match nullDefaultList decodeNode fields "nodes",
            nullDefaultList decodeEdge fields "edges" with
      | some nodes, some edges => some ⟨nodes, edges⟩
      | _, _ => none
  | _ => none

/-- The schema keys of an encoded `Edge` object. -/
def edgeKeys : List String :=
  ["id", "fromNode", "fromSide", "fromEnd", "toNode", "toSide", "toEnd",
   "color", "label"]

/-- The schema keys of an encoded `Node` object (union over the four
variants). -/
def nodeKeys : List String :=
  ["type", "id", "x", "y", "width", "height", "color",
   "text", "file", "subpath", "url", "label", "background", "backgroundStyle"]

/-- Key lookup on an encoded JSON object (`none` when the key is absent or
the value is not an object). -/
def Json.lookup (j : Json) (k : String) : Option Json :=
  match j with
  | .obj fields => getKey fields k
  | _ => none

/-! ## Sample values (mirroring the repository test `can_ser`) -/

def sampleTextNode : Node :=
  .Text ⟨⟨"mytextnode", ⟨1, 2⟩, ⟨10, 20⟩, some (.Preset .Purple)⟩,
    "Greetings to my lovely new node"⟩

def sampleLinkNode : Node :=
  .Link ⟨⟨"mylinknode", ⟨100, 200⟩, ⟨10, 5⟩, some (.Hex ⟨255, 0, 0⟩)⟩,
    ⟨"https://jsoncanvas.org/"⟩⟩

def sampleEdge : Edge :=
  ⟨"myedge", "mytextnode", some .Right, none, "mylinknode", some .Left,
    some .Arrow, some (.Preset .Cyan), some "Look out"⟩

def sampleCanvas : Canvas := ⟨[sampleTextNode, sampleLinkNode], [sampleEdge]⟩

/-! ## Validity of in-memory field values

The Rust types guarantee these by construction (`i64`/`u64` ranges, `u8`
color components); in this embedding they are explicit predicates, quantified
over in the round-trip statement ("constructed from valid field values"). -/

def Location.valid (l : Location) : Prop :=
  -(2 ^ 63) ≤ l.x ∧ l.x < 2 ^ 63 ∧ -(2 ^ 63) ≤ l.y ∧ l.y < 2 ^ 63

instance (l : Location) : Decidable l.valid := by
  unfold Location.valid; exact inferInstance

def Dimensions.valid (d : Dimensions) : Prop :=
  d.width < 2 ^ 64 ∧ d.height < 2 ^ 64

instance (d : Dimensions) : Decidable d.valid := by
  unfold Dimensions.valid; exact inferInstance

def HexColor.valid (h : HexColor) : Prop :=
  h.r < 256 ∧ h.g < 256 ∧ h.b < 256

instance (h : HexColor) : Decidable h.valid := by
  unfold HexColor.valid; exact inferInstance

def Color.valid : Color → Prop
  | .Preset _ => True
  | .Hex h => h.valid

instance : (c : Color) → Decidable c.valid
  | .Preset _ => isTrue trivial
  | .Hex h => inferInstanceAs (Decidable h.valid)

def colorOptValid : Option Color → Prop
  | none => True
  | some c => c.valid

instance : (o : Option Color) → Decidable (colorOptValid o)
  | none => isTrue trivial
  | some c => inferInstanceAs (Decidable c.valid)

def GenericNode.valid (g : GenericNode) : Prop :=
  g.location.valid ∧ g.dimensions.valid ∧ colorOptValid g.color

instance (g : GenericNode) : Decidable g.valid := by
  unfold GenericNode.valid; exact inferInstance

def Node.valid : Node → Prop
  | .Text t => t.generic.valid
  | .File f => f.generic.valid
  | .Link l => l.generic.valid
  | .Group g => g.generic.valid

instance : (n : Node) → Decidable n.valid
  | .Text t => inferInstanceAs (Decidable t.generic.valid)
  | .File f => inferInstanceAs (Decidable f.generic.valid)
  | .Link l => inferInstanceAs (Decidable l.generic.valid)
  | .Group g => inferInstanceAs (Decidable g.generic.valid)

def Edge.valid (e : Edge) : Prop := colorOptValid e.color

instance (e : Edge) : Decidable e.valid := by
  unfold Edge.valid; exact inferInstance

def Canvas.validFields (c : Canvas) : Prop :=
  (∀ n ∈ c.nodes, n.valid) ∧ (∀ e ∈ c.edges, e.valid)

instance (c : Canvas) : Decidable c.validFields := by
  unfold Canvas.validFields; exact inferInstance

/-! ## Round-trip lemmas, scalar level -/

theorem hexVal_hexChar : ∀ n, n < 16 → hexVal (hexChar n) = some n := by decide

theorem HexColor.parse_format (h : HexColor) (hv : h.valid) :
    HexColor.parse h.format = some h := by
  obtain ⟨r, g, b⟩ := h
  obtain ⟨hr, hg, hb⟩ := hv
  have hdiv : ∀ n, n < 256 → n / 16 < 16 := fun n hn => Nat.div_lt_of_lt_mul (by omega)
  have hmod : ∀ n : Nat, n % 16 < 16 := fun n => Nat.mod_lt _ (by norm_num)
  simp only [HexColor.format, HexColor.parse]
  rw [hexVal_hexChar _ (hdiv _ hr), hexVal_hexChar _ (hmod r),
      hexVal_hexChar _ (hdiv _ hg), hexVal_hexChar _ (hmod g),
      hexVal_hexChar _ (hdiv _ hb), hexVal_hexChar _ (hmod b)]
  simp
  omega

theorem format_data_length (h : HexColor) : (HexColor.format h).data.length = 7 := rfl

/-- A hex-color string never matches a `PresetColor` variant name, so the
first untagged attempt fails on hex strings. -/
theorem decodePresetColor_format (h : HexColor) :
    decodePresetColor (.str h.format) = none := by
  have hne : ∀ s : String, s.data.length ≠ 7 → HexColor.format h ≠ s := by
    intro s hs heq
    exact hs (heq ▸ format_data_length h)
  simp [decodePresetColor, hne "Red" (by decide), hne "Orange" (by decide),
        hne "Yellow" (by decide), hne "Green" (by decide),
        hne "Cyan" (by decide), hne "Purple" (by decide)]

theorem decodeColor_encodeColor (c : Color) (hv : c.valid) :
    decodeColor (encodeColor c) = some c := by
  cases c with
  | Preset p => cases p <;> rfl
  | Hex h =>
      simp [decodeColor, encodeColor, encodeHexColor, decodeHexColor,
            decodePresetColor_format, HexColor.parse_format h hv]

theorem decodeSide_encodeSide (s : Side) : decodeSide (encodeSide s) = some s := by
  cases s <;> rfl

theorem decodeEndStyle_encodeEndStyle (e : EndStyle) :
    decodeEndStyle (encodeEndStyle e) = some e := by
  cases e <;> rfl

theorem decodeBackgroundStyle_encodeBackgroundStyle (b : BackgroundStyle) :
    decodeBackgroundStyle (encodeBackgroundStyle b) = some b := by
  cases b <;> rfl

theorem encodeSide_not_null (s : Side) : (encodeSide s).isNull = false := by
  cases s <;> rfl

theorem encodeEndStyle_not_null (e : EndStyle) : (encodeEndStyle e).isNull = false := by
  cases e <;> rfl

theorem encodeBackgroundStyle_not_null (b : BackgroundStyle) :
    (encodeBackgroundStyle b).isNull = false := by
  cases b <;> rfl

theorem encodeColor_not_null (c : Color) : (encodeColor c).isNull = false := by
  cases c with
  | Preset p => cases p <;> rfl
  | Hex h => rfl

/-- Decode of an optional field whose key holds the encoding of `o`. -/
theorem decodeOptField_get {α : Type} (f : Json → Option α) (g : α → Json)
    (fields : List (String × Json)) (k : String) (o : Option α)
    (hget : getKey fields k = some (encodeOpt g o))
    (hfg : ∀ a, o = some a → f (g a) = some a)
    (hnn : ∀ a, (g a).isNull = false) :
    decodeOptField f fields k = some o := by
  cases o with
  | none => simp [decodeOptField, hget, encodeOpt, Json.isNull]
  | some a => simp [decodeOptField, hget, encodeOpt, hnn a, hfg a rfl]

theorem decodeI64_num (n : Int) (h1 : -(2 ^ 63) ≤ n) (h2 : n < 2 ^ 63) :
    decodeI64 (.num n) = some n := by
  simp only [decodeI64]
  rw [if_pos ⟨h1, h2⟩]

theorem decodeU64_num (w : Nat) (h : w < 2 ^ 64) :
    decodeU64 (.num (w : Int)) = some w := by
  have h1 : (0 : Int) ≤ (w : Int) := Int.natCast_nonneg w
  have h2 : (w : Int) < 2 ^ 64 := by exact_mod_cast h
  simp only [decodeU64]
  rw [if_pos ⟨h1, h2⟩, Int.toNat_natCast]

theorem decodeString_str (s : String) : decodeString (.str s) = some s := rfl

/-! ## Round-trip lemmas, structure level -/

/-- `decodeGenericNode` recovers `g` from any object whose six generic keys
hold the encodings of `g`'s fields (the other keys are ignored). -/
theorem decodeGenericNode_fields (g : GenericNode) (fields : List (String × Json))
    (hv : g.valid)
    (hid : getKey fields "id" = some (.str g.id))
    (hx : getKey fields "x" = some (.num g.location.x))
    (hy : getKey fields "y" = some (.num g.location.y))
    (hw : getKey fields "width" = some (.num g.dimensions.width))
    (hh : getKey fields "height" = some (.num g.dimensions.height))
    (hc : getKey fields "color" = some (encodeOpt encodeColor g.color)) :
    decodeGenericNode fields = some g := by
  obtain ⟨id, ⟨x, y⟩, ⟨w, ht⟩, color⟩ := g
  obtain ⟨⟨hx1, hx2, hy1, hy2⟩, ⟨hw1, hh1⟩, hcv⟩ := hv
  dsimp only at hid hx hy hw hh hc hx1 hx2 hy1 hy2 hw1 hh1 hcv
  have h1 : reqField decodeString fields "id" = some id := by
    unfold reqField; rw [hid]; rfl
  have h2 : reqField decodeI64 fields "x" = some x := by
    unfold reqField; rw [hx]; exact decodeI64_num x hx1 hx2
  have h3 : reqField decodeI64 fields "y" = some y := by
    unfold reqField; rw [hy]; exact decodeI64_num y hy1 hy2
  have h4 : reqField decodeU64 fields "width" = some w := by
    unfold reqField; rw [hw, Option.some_bind]; exact decodeU64_num w hw1
  have h5 : reqField decodeU64 fields "height" = some ht := by
    unfold reqField; rw [hh, Option.some_bind]; exact decodeU64_num ht hh1
  have h6 : decodeOptField decodeColor fields "color" = some color := by
    refine decodeOptField_get decodeColor encodeColor fields "color" color hc ?_
      encodeColor_not_null
    intro a ha
    subst ha
    exact decodeColor_encodeColor a hcv
  rw [decodeGenericNode, h1, h2, h3, h4, h5, h6]

theorem decodeNode_encodeNode (n : Node) (hv : n.valid) :
    decodeNode (encodeNode n) = some n := by
  cases n with
  | Text t =>
      obtain ⟨g, text⟩ := t
      have hgen := decodeGenericNode_fields g
        (("type", Json.str "text") :: g.encodeFields ++ [("text", Json.str text)])
        hv rfl rfl rfl rfl rfl rfl
      show (decodeTextNode
        (("type", Json.str "text") :: g.encodeFields ++ [("text", Json.str text)])).map
          Node.Text = some (Node.Text ⟨g, text⟩)
      rw [decodeTextNode, hgen]
      rfl
  | File f =>
      obtain ⟨g, file, subpath⟩ := f
      have hgen := decodeGenericNode_fields g
        (("type", Json.str "file") :: g.encodeFields
          ++ [("file", Json.str file), ("subpath", encodeOpt Json.str subpath)])
        hv rfl rfl rfl rfl rfl rfl
      have hsub : decodeOptField decodeString
          (("type", Json.str "file") :: g.encodeFields
            ++ [("file", Json.str file), ("subpath", encodeOpt Json.str subpath)])
          "subpath" = some subpath := by
        refine decodeOptField_get decodeString Json.str _ "subpath" subpath rfl ?_ ?_
        · intro a ha; rfl
        · intro a; rfl
      show (decodeFileNode
        (("type", Json.str "file") :: g.encodeFields
          ++ [("file", Json.str file), ("subpath", encodeOpt Json.str subpath)])).map
          Node.File = some (Node.File ⟨g, file, subpath⟩)
      rw [decodeFileNode, hgen, hsub]
      rfl
  | Link l =>
      obtain ⟨g, url⟩ := l
      have hgen := decodeGenericNode_fields g
        (("type", Json.str "link") :: g.encodeFields ++ [("url", encodeUrl url)])
        hv rfl rfl rfl rfl rfl rfl
      show (decodeLinkNode
        (("type", Json.str "link") :: g.encodeFields ++ [("url", encodeUrl url)])).map
          Node.Link = some (Node.Link ⟨g, url⟩)
      rw [decodeLinkNode, hgen]
      rfl
  | Group gr =>
      obtain ⟨g, label, background, background_style⟩ := gr
      have hgen := decodeGenericNode_fields g
        (("type", Json.str "group") :: g.encodeFields
          ++ [("label", encodeOpt Json.str label),
              ("background", encodeOpt Json.str background),
              ("backgroundStyle", encodeOpt encodeBackgroundStyle background_style)])
        hv rfl rfl rfl rfl rfl rfl
      have hlab : decodeOptField decodeString
          (("type", Json.str "group") :: g.encodeFields
            ++ [("label", encodeOpt Json.str label),
                ("background", encodeOpt Json.str background),
                ("backgroundStyle", encodeOpt encodeBackgroundStyle background_style)])
          "label" = some label := by
        refine decodeOptField_get decodeString Json.str _ "label" label rfl ?_ ?_
        · intro a ha; rfl
        · intro a; rfl
      have hbg : decodeOptField decodeString
          (("type", Json.str "group") :: g.encodeFields
            ++ [("label", encodeOpt Json.str label),
                ("background", encodeOpt Json.str background),
                ("backgroundStyle", encodeOpt encodeBackgroundStyle background_style)])
          "background" = some background := by
        refine decodeOptField_get decodeString Json.str _ "background" background rfl ?_ ?_
        · intro a ha; rfl
        · intro a; rfl
      have hbs : decodeOptField decodeBackgroundStyle
          (("type", Json.str "group") :: g.encodeFields
            ++ [("label", encodeOpt Json.str label),
                ("background", encodeOpt Json.str background),
                ("backgroundStyle", encodeOpt encodeBackgroundStyle background_style)])
          "backgroundStyle" = some background_style := by
        refine decodeOptField_get decodeBackgroundStyle encodeBackgroundStyle _
          "backgroundStyle" background_style rfl ?_ encodeBackgroundStyle_not_null
        intro a ha
        exact decodeBackgroundStyle_encodeBackgroundStyle a
      show (decodeGroupNode
        (("type", Json.str "group") :: g.encodeFields
          ++ [("label", encodeOpt Json.str label),
              ("background", encodeOpt Json.str background),
              ("backgroundStyle", encodeOpt encodeBackgroundStyle background_style)])).map
          Node.Group = some (Node.Group ⟨g, label, background, background_style⟩)
      rw [decodeGroupNode, hgen, hlab, hbg, hbs]
      rfl

theorem decodeEdge_encodeEdge (e : Edge) (hv : e.valid) :
    decodeEdge (encodeEdge e) = some e := by
  obtain ⟨id, fn, fs, fe, tn, ts, te, color, label⟩ := e
  dsimp only [Edge.valid] at hv
  have h3 : decodeOptField decodeSide
      [("id", Json.str id), ("fromNode", Json.str fn),
       ("fromSide", encodeOpt encodeSide fs), ("fromEnd", encodeOpt encodeEndStyle fe),
       ("toNode", Json.str tn), ("toSide", encodeOpt encodeSide ts),
       ("toEnd", encodeOpt encodeEndStyle te), ("color", encodeOpt encodeColor color),
       ("label", encodeOpt Json.str label)] "fromSide" = some fs :=
    decodeOptField_get decodeSide encodeSide _ "fromSide" fs rfl
      (fun a _ => decodeSide_encodeSide a) encodeSide_not_null
  have h4 : decodeOptField decodeEndStyle
      [("id", Json.str id), ("fromNode", Json.str fn),
       ("fromSide", encodeOpt encodeSide fs), ("fromEnd", encodeOpt encodeEndStyle fe),
       ("toNode", Json.str tn), ("toSide", encodeOpt encodeSide ts),
       ("toEnd", encodeOpt encodeEndStyle te), ("color", encodeOpt encodeColor color),
       ("label", encodeOpt Json.str label)] "fromEnd" = some fe :=
    decodeOptField_get decodeEndStyle encodeEndStyle _ "fromEnd" fe rfl
      (fun a _ => decodeEndStyle_encodeEndStyle a) encodeEndStyle_not_null
  have h6 : decodeOptField decodeSide
      [("id", Json.str id), ("fromNode", Json.str fn),
       ("fromSide", encodeOpt encodeSide fs), ("fromEnd", encodeOpt encodeEndStyle fe),
       ("toNode", Json.str tn), ("toSide", encodeOpt encodeSide ts),
       ("toEnd", encodeOpt encodeEndStyle te), ("color", encodeOpt encodeColor color),
       ("label", encodeOpt Json.str label)] "toSide" = some ts :=
    decodeOptField_get decodeSide encodeSide _ "toSide" ts rfl
      (fun a _ => decodeSide_encodeSide a) encodeSide_not_null
  have h7 : decodeOptField decodeEndStyle
      [("id", Json.str id), ("fromNode", Json.str fn),
       ("fromSide", encodeOpt encodeSide fs), ("fromEnd", encodeOpt encodeEndStyle fe),
       ("toNode", Json.str tn), ("toSide", encodeOpt encodeSide ts),
       ("toEnd", encodeOpt encodeEndStyle te), ("color", encodeOpt encodeColor color),
       ("label", encodeOpt Json.str label)] "toEnd" = some te :=
    decodeOptField_get decodeEndStyle encodeEndStyle _ "toEnd" te rfl
      (fun a _ => decodeEndStyle_encodeEndStyle a) encodeEndStyle_not_null
  have h8 : decodeOptField decodeColor
      [("id", Json.str id), ("fromNode", Json.str fn),
       ("fromSide", encodeOpt encodeSide fs), ("fromEnd", encodeOpt encodeEndStyle fe),
       ("toNode", Json.str tn), ("toSide", encodeOpt encodeSide ts),
       ("toEnd", encodeOpt encodeEndStyle te), ("color", encodeOpt encodeColor color),
       ("label", encodeOpt Json.str label)] "color" = some color := by
    refine decodeOptField_get decodeColor encodeColor _ "color" color rfl ?_
      encodeColor_not_null
    intro a ha
    rw [ha] at hv
    exact decodeColor_encodeColor a hv
  have h9 : decodeOptField decodeString
      [("id", Json.str id), ("fromNode", Json.str fn),
       ("fromSide", encodeOpt encodeSide fs), ("fromEnd", encodeOpt encodeEndStyle fe),
       ("toNode", Json.str tn), ("toSide", encodeOpt encodeSide ts),
       ("toEnd", encodeOpt encodeEndStyle te), ("color", encodeOpt encodeColor color),
       ("label", encodeOpt Json.str label)] "label" = some label :=
    decodeOptField_get decodeString Json.str _ "label" label rfl
      (fun a _ => rfl) (fun a => rfl)
  show decodeEdge (Json.obj
      [("id", Json.str id), ("fromNode", Json.str fn),
       ("fromSide", encodeOpt encodeSide fs), ("fromEnd", encodeOpt encodeEndStyle fe),
       ("toNode", Json.str tn), ("toSide", encodeOpt encodeSide ts),
       ("toEnd", encodeOpt encodeEndStyle te), ("color", encodeOpt encodeColor color),
       ("label", encodeOpt Json.str label)]) = _
  rw [decodeEdge, h3, h4, h6, h7, h8, h9]
  rfl

theorem decodeList_map {α : Type} (enc : α → Json) (dec : Json → Option α)
    (l : List α) (h : ∀ a ∈ l, dec (enc a) = some a) :
    decodeList dec (l.map enc) = some l := by
  induction l with
  | nil => rfl
  | cons a t ih =>
      have ha := h a (List.mem_cons_self a t)
      have ht := ih (fun x hx => h x (List.mem_cons_of_mem a hx))
      rw [List.map_cons, decodeList, ha, ht]

/-- Claim C3 (confirmed): for every Canvas built from valid field values,
decoding the encoding succeeds and returns exactly the same canvas — the same
nodes in the same order with the same fields and the same edges in the same
order with the same fields (exact equality, which subsumes the semantic
equality modulo representation rules the claim allows). -/
theorem claim3_canvas_roundtrip (c : Canvas) (hv : c.validFields) :
    decodeCanvas (encodeCanvas c) = some c := by
  obtain ⟨nodes, edges⟩ := c
  obtain ⟨hn, he⟩ := hv
  have h1 : nullDefaultList decodeNode
      [("nodes", Json.arr (nodes.map encodeNode)),
       ("edges", Json.arr (edges.map encodeEdge))] "nodes" = some nodes := by
    rw [nullDefaultList]
    exact decodeList_map encodeNode decodeNode nodes
      (fun n hnn => decodeNode_encodeNode n (hn n hnn))
  have h2 : nullDefaultList decodeEdge
      [("nodes", Json.arr (nodes.map encodeNode)),
       ("edges", Json.arr (edges.map encodeEdge))] "edges" = some edges := by
    rw [nullDefaultList]
    exact decodeList_map encodeEdge decodeEdge edges
      (fun e hee => decodeEdge_encodeEdge e (he e hee))
  show decodeCanvas (Json.obj
      [("nodes", Json.arr (nodes.map encodeNode)),
       ("edges", Json.arr (edges.map encodeEdge))]) = _
  rw [decodeCanvas, h1, h2]

/-! ## Validator characterization -/

theorem mem_endpoint_fold (edges : List Edge) (init : Finset String) (x : String) :
    x ∈ edges.foldl (fun s e => insert e.to_node (insert e.from_node s)) init ↔
      x ∈ init ∨ ∃ e ∈ edges, e.from_node = x ∨ e.to_node = x := by
  induction edges generalizing init with
  | nil => simp
  | cons e t ih =>
      rw [List.foldl_cons, ih]
      simp only [Finset.mem_insert, List.mem_cons]
      constructor
      · rintro ((h | h | h) | ⟨e2, he2, hor⟩)
        · exact Or.inr ⟨e, Or.inl rfl, Or.inr h.symm⟩
        · exact Or.inr ⟨e, Or.inl rfl, Or.inl h.symm⟩
        · exact Or.inl h
        · exact Or.inr ⟨e2, Or.inr he2, hor⟩
      · rintro (h | ⟨e2, (rfl | he2), hor⟩)
        · exact Or.inl (Or.inr (Or.inr h))
        · rcases hor with h | h
          · exact Or.inl (Or.inr (Or.inl h.symm))
          · exact Or.inl (Or.inl h.symm)
        · exact Or.inr ⟨e2, he2, hor⟩

theorem mem_erase_fold (nodes : List Node) (init : Finset String) (x : String) :
    x ∈ nodes.foldl (fun s n => s.erase n.id) init ↔
      x ∈ init ∧ ∀ n ∈ nodes, n.id ≠ x := by
  induction nodes generalizing init with
  | nil => simp
  | cons n t ih =>
      rw [List.foldl_cons, ih]
      simp only [Finset.mem_erase, List.mem_cons]
      constructor
      · rintro ⟨⟨hne, hmem⟩, hall⟩
        refine ⟨hmem, ?_⟩
        rintro m (rfl | hm)
        · exact fun hcontra => hne hcontra.symm
        · exact hall m hm
      · rintro ⟨hmem, hall⟩
        exact ⟨⟨fun hcontra => hall n (Or.inl rfl) hcontra.symm, hmem⟩,
          fun m hm => hall m (Or.inr hm)⟩

theorem mem_unknown_nodes (c : Canvas) (x : String) :
    x ∈ c.unknown_nodes ↔
      (∃ e ∈ c.edges, e.from_node = x ∨ e.to_node = x) ∧ ∀ n ∈ c.nodes, n.id ≠ x := by
  unfold Canvas.unknown_nodes
  rw [mem_erase_fold, mem_endpoint_fold]
  simp

/-! ## Key congruence: decoding depends only on the schema keys -/

theorem getKey_none_of_no_key (l : List (String × Json)) (k : String)
    (h : ∀ kv ∈ l, kv.1 ≠ k) : getKey l k = none := by
  induction l with
  | nil => rfl
  | cons kv t ih =>
      obtain ⟨k0, v0⟩ := kv
      rw [getKey, if_neg (h (k0, v0) (List.mem_cons_self _ _))]
      exact ih (fun kv hkv => h kv (List.mem_cons_of_mem _ hkv))

theorem getKey_append_extra (l extra : List (String × Json)) (k : String)
    (h : ∀ kv ∈ extra, kv.1 ≠ k) : getKey (l ++ extra) k = getKey l k := by
  induction l with
  | nil =>
      rw [List.nil_append, getKey_none_of_no_key extra k h]
      rfl
  | cons kv t ih =>
      obtain ⟨k0, v0⟩ := kv
      rw [List.cons_append, getKey, getKey]
      by_cases hk : k0 = k
      · rw [if_pos hk, if_pos hk]
      · rw [if_neg hk, if_neg hk, ih]

theorem decodeGenericNode_congr (A B : List (String × Json))
    (h : ∀ k ∈ nodeKeys, getKey A k = getKey B k) :
    decodeGenericNode A = decodeGenericNode B := by
  rw [decodeGenericNode, decodeGenericNode]
  unfold reqField decodeOptField
  rw [h "id" (by decide), h "x" (by decide), h "y" (by decide),
      h "width" (by decide), h "height" (by decide), h "color" (by decide)]

theorem decodeTextNode_congr (A B : List (String × Json))
    (h : ∀ k ∈ nodeKeys, getKey A k = getKey B k) :
    decodeTextNode A = decodeTextNode B := by
  rw [decodeTextNode, decodeTextNode, decodeGenericNode_congr A B h]
  unfold reqField
  rw [h "text" (by decide)]

theorem decodeFileNode_congr (A B : List (String × Json))
    (h : ∀ k ∈ nodeKeys, getKey A k = getKey B k) :
    decodeFileNode A = decodeFileNode B := by
  rw [decodeFileNode, decodeFileNode, decodeGenericNode_congr A B h]
  unfold reqField decodeOptField
  rw [h "file" (by decide), h "subpath" (by decide)]

theorem decodeLinkNode_congr (A B : List (String × Json))
    (h : ∀ k ∈ nodeKeys, getKey A k = getKey B k) :
    decodeLinkNode A = decodeLinkNode B := by
  rw [decodeLinkNode, decodeLinkNode, decodeGenericNode_congr A B h]
  unfold reqField
  rw [h "url" (by decide)]

theorem decodeGroupNode_congr (A B : List (String × Json))
    (h : ∀ k ∈ nodeKeys, getKey A k = getKey B k) :
    decodeGroupNode A = decodeGroupNode B := by
  rw [decodeGroupNode, decodeGroupNode, decodeGenericNode_congr A B h]
  unfold decodeOptField
  rw [h "label" (by decide), h "background" (by decide),
      h "backgroundStyle" (by decide)]

theorem decodeNode_congr (A B : List (String × Json))
    (h : ∀ k ∈ nodeKeys, getKey A k = getKey B k) :
    decodeNode (.obj A) = decodeNode (.obj B) := by
  rw [decodeNode, decodeNode, h "type" (by decide),
      decodeTextNode_congr A B h, decodeFileNode_congr A B h,
      decodeLinkNode_congr A B h, decodeGroupNode_congr A B h]

theorem decodeEdge_congr (A B : List (String × Json))
    (h : ∀ k ∈ edgeKeys, getKey A k = getKey B k) :
    decodeEdge (.obj A) = decodeEdge (.obj B) := by
  rw [decodeEdge, decodeEdge]
  unfold reqField decodeOptField
  rw [h "id" (by decide), h "fromNode" (by decide), h "fromSide" (by decide),
      h "fromEnd" (by decide), h "toNode" (by decide), h "toSide" (by decide),
      h "toEnd" (by decide), h "color" (by decide), h "label" (by decide)]

/-! ## Further component lemmas -/

/-- Variant of `decodeGenericNode_fields` for an object with no `color` key:
the optional field decodes to `none`. -/
theorem decodeGenericNode_fields_noColor (g : GenericNode)
    (fields : List (String × Json))
    (hv : g.valid) (hcol : g.color = none)
    (hid : getKey fields "id" = some (.str g.id))
    (hx : getKey fields "x" = some (.num g.location.x))
    (hy : getKey fields "y" = some (.num g.location.y))
    (hw : getKey fields "width" = some (.num g.dimensions.width))
    (hh : getKey fields "height" = some (.num g.dimensions.height))
    (hc : getKey fields "color" = none) :
    decodeGenericNode fields = some g := by
  obtain ⟨id, ⟨x, y⟩, ⟨w, ht⟩, color⟩ := g
  obtain ⟨⟨hx1, hx2, hy1, hy2⟩, ⟨hw1, hh1⟩, hcv⟩ := hv
  dsimp only at hid hx hy hw hh hc hx1 hx2 hy1 hy2 hw1 hh1 hcv hcol
  subst hcol
  have h1 : reqField decodeString fields "id" = some id := by
    unfold reqField; rw [hid]; rfl
  have h2 : reqField decodeI64 fields "x" = some x := by
    unfold reqField; rw [hx]; exact decodeI64_num x hx1 hx2
  have h3 : reqField decodeI64 fields "y" = some y := by
    unfold reqField; rw [hy]; exact decodeI64_num y hy1 hy2
  have h4 : reqField decodeU64 fields "width" = some w := by
    unfold reqField; rw [hw, Option.some_bind]; exact decodeU64_num w hw1
  have h5 : reqField decodeU64 fields "height" = some ht := by
    unfold reqField; rw [hh, Option.some_bind]; exact decodeU64_num ht hh1
  have h6 : decodeOptField decodeColor fields "color" = some none := by
    unfold decodeOptField; rw [hc]
  rw [decodeGenericNode, h1, h2, h3, h4, h5, h6]

/-- Successful edge decoding reads the `fromEnd` component through
`decodeOptField`. -/
theorem decodeEdge_from_end_component (fields : List (String × Json)) (e : Edge)
    (h : decodeEdge (.obj fields) = some e) :
    decodeOptField decodeEndStyle fields "fromEnd" = some e.from_end := by
  rw [decodeEdge] at h
  split at h
  · rename_i id fn fs fe tn ts te color label h1 h2 h3 h4 h5 h6 h7 h8 h9
    injection h with h
    subst h
    exact h4
  · exact Option.noConfusion h

theorem decodeEdge_to_end_component (fields : List (String × Json)) (e : Edge)
    (h : decodeEdge (.obj fields) = some e) :
    decodeOptField decodeEndStyle fields "toEnd" = some e.to_end := by
  rw [decodeEdge] at h
  split at h
  · rename_i id fn fs fe tn ts te color label h1 h2 h3 h4 h5 h6 h7 h8 h9
    injection h with h
    subst h
    exact h7
  · exact Option.noConfusion h

/-! ## Claim theorems -/

/-- Claim C1 (code bug): the spec and the source's own discriminant values
`Red = 1` … `Purple = 6` say preset colors live on the wire as the bare
integers 1–6, but the derived serde impl ignores discriminants: decoding the
integer 4 (or any integer, e.g. 7) as a `Color` fails, presets decode only
from their variant-name strings ("Green" ↦ Green), while the hex case behaves
as specified (`"#FF0000"` ↦ red 255, green 0, blue 0). -/
theorem claim1_color_wire_shape :
    decodeColor (.num 4) = none ∧
    decodeColor (.num 7) = none ∧
    decodeColor (.str "#FF0000") = some (.Hex ⟨255, 0, 0⟩) ∧
    decodeColor (.str "Green") = some (.Preset .Green) ∧
    encodeColor (.Preset .Green) = .str "Green" :=
  ⟨rfl, rfl, rfl, rfl, rfl⟩

/-- Claim C2 (code bug): with `deserialize_with` but no `#[serde(default)]`,
an explicit `null` for `nodes`/`edges` decodes to the empty collection as
claimed, but decoding `{}` (keys absent) fails with a missing-field error
instead of yielding an empty canvas; a populated `nodes` array with an empty
`edges` array decodes to exactly the given nodes and zero edges. -/
theorem claim2_canvas_null_default :
    decodeCanvas (.obj [("nodes", .null), ("edges", .null)]) = some ⟨[], []⟩ ∧
    decodeCanvas (.obj []) = none ∧
    decodeCanvas (.obj
      [("nodes", .arr [.obj [("type", .str "text"), ("id", .str "a"),
         ("x", .num 1), ("y", .num 2), ("width", .num 3), ("height", .num 4),
         ("text", .str "hi")]]),
       ("edges", .arr [])]) =
      some ⟨[.Text ⟨⟨"a", ⟨1, 2⟩, ⟨3, 4⟩, none⟩, "hi"⟩], []⟩ :=
  ⟨rfl, rfl, rfl⟩

/-- Witness for claim C3 at the concrete canvas of the `can_ser` test. -/
theorem claim3_canvas_roundtrip_witness :
    Canvas.validFields sampleCanvas ∧
      decodeCanvas (encodeCanvas sampleCanvas) = some sampleCanvas :=
  ⟨by decide, claim3_canvas_roundtrip sampleCanvas (by decide)⟩

/-- Claim C4 counterexample: encoding an edge whose optional fields are all
`None` emits `"fromSide": null` — the key is present with a null value, not
omitted as the claim states. -/
theorem claim4_counterexample :
    (encodeEdge ⟨"e", "a", none, none, "b", none, none, none, none⟩).lookup
        "fromSide" = some Json.null ∧
      (encodeEdge ⟨"e", "a", none, none, "b", none, none, none, none⟩).lookup
        "fromSide" ≠ none :=
  ⟨rfl, fun h => Option.noConfusion h⟩

/-- Claim C4 amended (corrected): when encoding any Node or Edge, an optional
field whose in-memory value is `None` is emitted with an explicit JSON `null`
under its key — the key is present, not omitted (the source has no
`skip_serializing_if` attributes).  This covers every optional field of the
model: the six optional `Edge` fields, the shared `color` of all four node
kinds (quantified through an arbitrary `Node`), `FileNode`'s `subpath`, and
`GroupNode`'s `label`, `background` and `backgroundStyle`. -/
theorem claim4_optional_none_as_null (e : Edge) (n : Node) (f : FileNode)
    (g : GroupNode) :
    (e.from_side = none → (encodeEdge e).lookup "fromSide" = some .null) ∧
    (e.from_end = none → (encodeEdge e).lookup "fromEnd" = some .null) ∧
    (e.to_side = none → (encodeEdge e).lookup "toSide" = some .null) ∧
    (e.to_end = none → (encodeEdge e).lookup "toEnd" = some .null) ∧
    (e.color = none → (encodeEdge e).lookup "color" = some .null) ∧
    (e.label = none → (encodeEdge e).lookup "label" = some .null) ∧
    (n.color = none → (encodeNode n).lookup "color" = some .null) ∧
    (f.subpath = none → (encodeNode (.File f)).lookup "subpath" = some .null) ∧
    (g.label = none → (encodeNode (.Group g)).lookup "label" = some .null) ∧
    (g.background = none →
      (encodeNode (.Group g)).lookup "background" = some .null) ∧
    (g.background_style = none →
      (encodeNode (.Group g)).lookup "backgroundStyle" = some .null) := by
  have hn : n.color = none → (encodeNode n).lookup "color" = some Json.null := by
    cases n with
    | Text t =>
        obtain ⟨⟨tid, tloc, tdim, tcolor⟩, ttext⟩ := t
        intro h
        dsimp only [Node.color] at h
        subst h
        rfl
    | File f2 =>
        obtain ⟨⟨fid, floc, fdim, fcolor⟩, ffile, fsub⟩ := f2
        intro h
        dsimp only [Node.color] at h
        subst h
        rfl
    | Link l =>
        obtain ⟨⟨lid, lloc, ldim, lcolor⟩, lurl⟩ := l
        intro h
        dsimp only [Node.color] at h
        subst h
        rfl
    | Group g2 =>
        obtain ⟨⟨gid2, gloc2, gdim2, gcolor2⟩, glabel2, gbg2, gbs2⟩ := g2
        intro h
        dsimp only [Node.color] at h
        subst h
        rfl
  obtain ⟨id, fn, fs, fe, tn, ts, te, color, label⟩ := e
  obtain ⟨⟨fgid, fgloc, fgdim, fgcolor⟩, ffile, fsub⟩ := f
  obtain ⟨⟨gid, gloc, gdim, gcolor⟩, glabel, gbg, gbs⟩ := g
  refine ⟨?_, ?_, ?_, ?_, ?_, ?_, hn, ?_, ?_, ?_, ?_⟩ <;>
    · intro h
      dsimp only at h
      subst h
      rfl

/-- Witness for the amended claim C4 at concrete all-`None` values, one per
shape: an Edge end, a Text node color, a File node subpath, and a Group node
background style. -/
theorem claim4_optional_none_as_null_witness :
    ((encodeEdge ⟨"e", "a", none, none, "b", none, none, none, none⟩).lookup
        "toEnd" = some .null) ∧
    ((encodeNode (.Text ⟨⟨"t", ⟨0, 0⟩, ⟨1, 1⟩, none⟩, "hi"⟩)).lookup
        "color" = some .null) ∧
    ((encodeNode (.File ⟨⟨"f", ⟨0, 0⟩, ⟨1, 1⟩, none⟩, "a.md", none⟩)).lookup
        "subpath" = some .null) ∧
    ((encodeNode (.Group ⟨⟨"g", ⟨0, 0⟩, ⟨1, 1⟩, none⟩, none, none, none⟩)).lookup
        "backgroundStyle" = some .null) :=
  ⟨(claim4_optional_none_as_null ⟨"e", "a", none, none, "b", none, none, none, none⟩
      (.Text ⟨⟨"t", ⟨0, 0⟩, ⟨1, 1⟩, none⟩, "hi"⟩)
      ⟨⟨"f", ⟨0, 0⟩, ⟨1, 1⟩, none⟩, "a.md", none⟩
      ⟨⟨"g", ⟨0, 0⟩, ⟨1, 1⟩, none⟩, none, none, none⟩).2.2.2.1 rfl,
   (claim4_optional_none_as_null ⟨"e", "a", none, none, "b", none, none, none, none⟩
      (.Text ⟨⟨"t", ⟨0, 0⟩, ⟨1, 1⟩, none⟩, "hi"⟩)
      ⟨⟨"f", ⟨0, 0⟩, ⟨1, 1⟩, none⟩, "a.md", none⟩
      ⟨⟨"g", ⟨0, 0⟩, ⟨1, 1⟩, none⟩, none, none, none⟩).2.2.2.2.2.2.1 rfl,
   (claim4_optional_none_as_null ⟨"e", "a", none, none, "b", none, none, none, none⟩
      (.Text ⟨⟨"t", ⟨0, 0⟩, ⟨1, 1⟩, none⟩, "hi"⟩)
      ⟨⟨"f", ⟨0, 0⟩, ⟨1, 1⟩, none⟩, "a.md", none⟩
      ⟨⟨"g", ⟨0, 0⟩, ⟨1, 1⟩, none⟩, none, none, none⟩).2.2.2.2.2.2.2.1 rfl,
   (claim4_optional_none_as_null ⟨"e", "a", none, none, "b", none, none, none, none⟩
      (.Text ⟨⟨"t", ⟨0, 0⟩, ⟨1, 1⟩, none⟩, "hi"⟩)
      ⟨⟨"f", ⟨0, 0⟩, ⟨1, 1⟩, none⟩, "a.md", none⟩
      ⟨⟨"g", ⟨0, 0⟩, ⟨1, 1⟩, none⟩, none, none, none⟩).2.2.2.2.2.2.2.2.2.2 rfl⟩

/-- Claim C5 counterexample: the edge object without `fromEnd` and the
otherwise identical object with `"fromEnd": "none"` both decode successfully
but to DIFFERENT `Edge` values — `from_end` is `none` in one and
`some EndStyle.None` in the other — refuting the claimed equality. -/
theorem claim5_counterexample :
    decodeEdge (.obj [("id", .str "e"), ("fromNode", .str "a"),
        ("toNode", .str "b")]) =
      some ⟨"e", "a", none, none, "b", none, none, none, none⟩ ∧
    decodeEdge (.obj [("id", .str "e"), ("fromNode", .str "a"),
        ("toNode", .str "b"), ("fromEnd", .str "none")]) =
      some ⟨"e", "a", none, some .None, "b", none, none, none, none⟩ ∧
    (⟨"e", "a", none, none, "b", none, none, none, none⟩ : Edge) ≠
      ⟨"e", "a", none, some .None, "b", none, none, none, none⟩ :=
  ⟨rfl, rfl, by decide⟩

/-- Claim C5 amended (corrected): an absent `fromEnd` decodes to the `Edge`
field value `none` while an explicit `"fromEnd": "none"` decodes to
`some EndStyle.None` (symmetrically for `toEnd`); the two edges are NOT equal
values, and agree only after normalizing the field through
`From<Option<EndStyle>>` (both ends normalize to `EndStyle::None`). -/
theorem claim5_end_style_decode :
    (∀ (fields : List (String × Json)) (e : Edge), getKey fields "fromEnd" = none →
        decodeEdge (.obj fields) = some e → e.from_end = none) ∧
    (∀ (fields : List (String × Json)) (e : Edge),
        getKey fields "fromEnd" = some (.str "none") →
        decodeEdge (.obj fields) = some e → e.from_end = some EndStyle.None) ∧
    (∀ (fields : List (String × Json)) (e : Edge), getKey fields "toEnd" = none →
        decodeEdge (.obj fields) = some e → e.to_end = none) ∧
    (∀ (fields : List (String × Json)) (e : Edge),
        getKey fields "toEnd" = some (.str "none") →
        decodeEdge (.obj fields) = some e → e.to_end = some EndStyle.None) ∧
    EndStyle.fromOption none = EndStyle.fromOption (some EndStyle.None) := by
  refine ⟨?_, ?_, ?_, ?_, rfl⟩
  · intro fields e hget hdec
    have hcomp := decodeEdge_from_end_component fields e hdec
    unfold decodeOptField at hcomp
    rw [hget] at hcomp
    injection hcomp with hcomp
    exact hcomp.symm
  · intro fields e hget hdec
    have hcomp := decodeEdge_from_end_component fields e hdec
    unfold decodeOptField at hcomp
    rw [hget] at hcomp
    have hcomp2 : some (some EndStyle.None) = some e.from_end := hcomp
    injection hcomp2 with h2
    exact h2.symm
  · intro fields e hget hdec
    have hcomp := decodeEdge_to_end_component fields e hdec
    unfold decodeOptField at hcomp
    rw [hget] at hcomp
    injection hcomp with hcomp
    exact hcomp.symm
  · intro fields e hget hdec
    have hcomp := decodeEdge_to_end_component fields e hdec
    unfold decodeOptField at hcomp
    rw [hget] at hcomp
    have hcomp2 : some (some EndStyle.None) = some e.to_end := hcomp
    injection hcomp2 with h2
    exact h2.symm

/-- Witness for the amended claim C5 at the two concrete edge objects. -/
theorem claim5_end_style_decode_witness :
    (⟨"e", "a", none, none, "b", none, none, none, none⟩ : Edge).from_end = none ∧
      (⟨"e", "a", none, some .None, "b", none, none, none, none⟩ : Edge).from_end =
        some EndStyle.None :=
  ⟨claim5_end_style_decode.1
      [("id", .str "e"), ("fromNode", .str "a"), ("toNode", .str "b")] _ rfl rfl,
   claim5_end_style_decode.2.1
      [("id", .str "e"), ("fromNode", .str "a"), ("toNode", .str "b"),
       ("fromEnd", .str "none")] _ rfl rfl⟩

/-- Claim C6 (confirmed): membership in `unknown_nodes` is exactly
"occurs as an edge endpoint and is no declared node id"; when every endpoint
is declared the set is empty; and prepending a node with a given id removes
that id from the result. -/
theorem claim6_unknown_nodes (c : Canvas) :
    (∀ x, x ∈ c.unknown_nodes ↔
      (∃ e ∈ c.edges, e.from_node = x ∨ e.to_node = x) ∧ ∀ n ∈ c.nodes, n.id ≠ x) ∧
    ((∀ e ∈ c.edges, (∃ n ∈ c.nodes, n.id = e.from_node) ∧
        (∃ n ∈ c.nodes, n.id = e.to_node)) → c.unknown_nodes = ∅) ∧
    (∀ nd : Node, nd.id ∉ (Canvas.mk (nd :: c.nodes) c.edges).unknown_nodes) := by
  refine ⟨mem_unknown_nodes c, ?_, ?_⟩
  · intro h
    rw [Finset.eq_empty_iff_forall_not_mem]
    intro x hx
    rw [mem_unknown_nodes] at hx
    obtain ⟨⟨e, he, hor⟩, hnone⟩ := hx
    obtain ⟨⟨n1, hn1, hid1⟩, ⟨n2, hn2, hid2⟩⟩ := h e he
    rcases hor with h1 | h1
    · exact hnone n1 hn1 (hid1.trans h1)
    · exact hnone n2 hn2 (hid2.trans h1)
  · intro nd hmem
    rw [mem_unknown_nodes] at hmem
    exact hmem.2 nd (List.mem_cons_self _ _) rfl

/-- Witness for claim C6: the sample canvas has full referential integrity,
so its unknown-node set is empty. -/
theorem claim6_unknown_nodes_witness : sampleCanvas.unknown_nodes = ∅ :=
  (claim6_unknown_nodes sampleCanvas).2.1 (by decide)

/-- Claim C7 (confirmed): decoding dispatches on the `type` tag — a `link`
object yields a Link node whose `url` accessor returns the given URL and
whose shared id/location/dimensions/color accessors return the shared fields,
and an object whose `type` is none of the four known strings fails to
decode. -/
theorem claim7_node_tag_dispatch :
    (∀ (id u : String) (x y : Int) (w h : Nat),
      -(2 ^ 63) ≤ x → x < 2 ^ 63 → -(2 ^ 63) ≤ y → y < 2 ^ 63 →
      w < 2 ^ 64 → h < 2 ^ 64 →
      decodeNode (.obj [("type", .str "link"), ("id", .str id), ("x", .num x),
          ("y", .num y), ("width", .num w), ("height", .num h),
          ("url", .str u)]) =
        some (.Link ⟨⟨id, ⟨x, y⟩, ⟨w, h⟩, none⟩, ⟨u⟩⟩) ∧
      (LinkNode.mk ⟨id, ⟨x, y⟩, ⟨w, h⟩, none⟩ ⟨u⟩).url = ⟨u⟩ ∧
      (Node.Link ⟨⟨id, ⟨x, y⟩, ⟨w, h⟩, none⟩, ⟨u⟩⟩).id = id ∧
      (Node.Link ⟨⟨id, ⟨x, y⟩, ⟨w, h⟩, none⟩, ⟨u⟩⟩).location = ⟨x, y⟩ ∧
      (Node.Link ⟨⟨id, ⟨x, y⟩, ⟨w, h⟩, none⟩, ⟨u⟩⟩).dimensions = ⟨w, h⟩ ∧
      (Node.Link ⟨⟨id, ⟨x, y⟩, ⟨w, h⟩, none⟩, ⟨u⟩⟩).color = none) ∧
    (∀ (fields : List (String × Json)) (t : String),
      getKey fields "type" = some (.str t) →
      t ≠ "text" → t ≠ "file" → t ≠ "link" → t ≠ "group" →
      decodeNode (.obj fields) = none) := by
  constructor
  · intro id u x y w h hx1 hx2 hy1 hy2 hw1 hh1
    refine ⟨?_, rfl, rfl, rfl, rfl, rfl⟩
    have hgen := decodeGenericNode_fields_noColor ⟨id, ⟨x, y⟩, ⟨w, h⟩, none⟩
      [("type", Json.str "link"), ("id", Json.str id), ("x", Json.num x),
       ("y", Json.num y), ("width", Json.num w), ("height", Json.num h),
       ("url", Json.str u)]
      ⟨⟨hx1, hx2, hy1, hy2⟩, ⟨hw1, hh1⟩, True.intro⟩ rfl rfl rfl rfl rfl rfl rfl
    show (decodeLinkNode
      [("type", Json.str "link"), ("id", Json.str id), ("x", Json.num x),
       ("y", Json.num y), ("width", Json.num w), ("height", Json.num h),
       ("url", Json.str u)]).map Node.Link =
        some (.Link ⟨⟨id, ⟨x, y⟩, ⟨w, h⟩, none⟩, ⟨u⟩⟩)
    rw [decodeLinkNode, hgen]
    rfl
  · intro fields t hget h1 h2 h3 h4
    rw [decodeNode, hget]
    show (if t = "text" then (decodeTextNode fields).map Node.Text
          else if t = "file" then (decodeFileNode fields).map Node.File
          else if t = "link" then (decodeLinkNode fields).map Node.Link
          else if t = "group" then (decodeGroupNode fields).map Node.Group
          else none) = none
    rw [if_neg h1, if_neg h2, if_neg h3, if_neg h4]

/-- Witness for claim C7 at a concrete link object and the tag "bogus". -/
theorem claim7_node_tag_dispatch_witness :
    decodeNode (.obj [("type", .str "link"), ("id", .str "mylinknode"),
        ("x", .num 100), ("y", .num 200), ("width", .num 10), ("height", .num 5),
        ("url", .str "https://jsoncanvas.org/")]) =
      some (.Link ⟨⟨"mylinknode", ⟨100, 200⟩, ⟨10, 5⟩, none⟩,
        ⟨"https://jsoncanvas.org/"⟩⟩) ∧
    decodeNode (.obj [("type", .str "bogus"), ("id", .str "n")]) = none :=
  ⟨(claim7_node_tag_dispatch.1 "mylinknode" "https://jsoncanvas.org/" 100 200 10 5
      (by decide) (by decide) (by decide) (by decide) (by decide) (by decide)).1,
   claim7_node_tag_dispatch.2 [("type", .str "bogus"), ("id", .str "n")] "bogus"
      rfl (by decide) (by decide) (by decide) (by decide)⟩

/-- Claim C8 (confirmed): appending keys outside the Edge/Node schemas to an
encoded object leaves the decode result unchanged — unrecognized keys are
ignored and recognized keys decode exactly as if the extras were absent. -/
theorem claim8_extra_keys_ignored :
    (∀ (fields extra : List (String × Json)), (∀ kv ∈ extra, kv.1 ∉ edgeKeys) →
        decodeEdge (.obj (fields ++ extra)) = decodeEdge (.obj fields)) ∧
    (∀ (fields extra : List (String × Json)), (∀ kv ∈ extra, kv.1 ∉ nodeKeys) →
        decodeNode (.obj (fields ++ extra)) = decodeNode (.obj fields)) := by
  constructor
  · intro fields extra hextra
    refine decodeEdge_congr _ _ ?_
    intro k hk
    refine getKey_append_extra fields extra k ?_
    intro kv hkv heq
    exact hextra kv hkv (heq ▸ hk)
  · intro fields extra hextra
    refine decodeNode_congr _ _ ?_
    intro k hk
    refine getKey_append_extra fields extra k ?_
    intro kv hkv heq
    exact hextra kv hkv (heq ▸ hk)

/-- Witness for claim C8 with concrete unrecognized keys. -/
theorem claim8_extra_keys_ignored_witness :
    decodeEdge (.obj ([("id", .str "e"), ("fromNode", .str "a"),
        ("toNode", .str "b")] ++ [("wibble", .bool true)])) =
      decodeEdge (.obj [("id", .str "e"), ("fromNode", .str "a"),
        ("toNode", .str "b")]) ∧
    decodeNode (.obj ([("type", .str "text"), ("id", .str "a"), ("x", .num 1),
        ("y", .num 2), ("width", .num 3), ("height", .num 4),
        ("text", .str "hi")] ++ [("futureKey", .num 9)])) =
      decodeNode (.obj [("type", .str "text"), ("id", .str "a"), ("x", .num 1),
        ("y", .num 2), ("width", .num 3), ("height", .num 4),
        ("text", .str "hi")]) :=
  ⟨claim8_extra_keys_ignored.1 _ [("wibble", .bool true)] (by decide),
   claim8_extra_keys_ignored.2 _ [("futureKey", .num 9)] (by decide)⟩

/-- Claim C9 (confirmed): the state-passing rendition of `unknown_nodes`
returns the canvas unchanged — node and edge collections (hence every field
of every node and edge) are identical after the call — computes the same set
as the functional definition, and is total (it returns an answer on every
canvas, with no failure case in its type). -/
theorem claim9_unknown_nodes_pure (c : Canvas) :
    (Canvas.unknown_nodes_run c).2 = c ∧
    (Canvas.unknown_nodes_run c).2.nodes = c.nodes ∧
    (Canvas.unknown_nodes_run c).2.edges = c.edges ∧
    (Canvas.unknown_nodes_run c).1 = c.unknown_nodes :=
  ⟨rfl, rfl, rfl, rfl⟩

/-- Claim C10 (confirmed): `into_option` sends the `None` style to `none` and
`Arrow` to `some Arrow`; the `From<Option<EndStyle>>` conversion sends `none`
to the default `None`; and the two compose to the identity on `EndStyle`. -/
theorem claim10_end_style_conversions :
    EndStyle.into_option .None = none ∧
    EndStyle.into_option .Arrow = some .Arrow ∧
    EndStyle.fromOption none = .None ∧
    (∀ e : EndStyle, EndStyle.fromOption e.into_option = e) := by
  refine ⟨rfl, rfl, rfl, ?_⟩
  intro e
  cases e <;> rfl

end JsonCanvas
